import Mathlib

/-!
Verification of the RMC heading-estimation script (`src/RMC/rmc_heading.py`).

Positions, speeds, courses and timestamps carried by decoded messages are
embedded as rationals (exact decimal inputs); the trigonometric bearing
computation is embedded over the real numbers.
-/

/-- Python float modulo `x % y`: the remainder carries the sign of the
divisor, so for a positive divisor it is `x - y * ⌊x / y⌋`. -/
noncomputable def fmod (x y : ℝ) : ℝ := x - y * ⌊x / y⌋

/-- Two-argument arctangent, mirroring `math.atan2(y, x)`: the angle of the
point `(x, y)`, in `(-π, π]`. -/
noncomputable def atan2 (y x : ℝ) : ℝ :=
  if 0 < x then Real.arctan (y / x)
  else if x < 0 then
    (if 0 ≤ y then Real.arctan (y / x) + Real.pi else Real.arctan (y / x) - Real.pi)
  else if 0 < y then Real.pi / 2
  else if y < 0 then -(Real.pi / 2)
  else 0

/-- Degree-to-radian conversion, mirroring `math.radians`. -/
noncomputable def radians (x : ℝ) : ℝ := x * (Real.pi / 180)

/-- Radian-to-degree conversion, mirroring `math.degrees`. -/
noncomputable def degrees (x : ℝ) : ℝ := x * (180 / Real.pi)

/-- Bearing between two latitude/longitude points, mirroring
`haversine_heading` in `rmc_heading.py`: spherical forward azimuth converted
to degrees and normalized into `[0, 360)` by adding 360 and taking the
Python float modulo. -/
noncomputable def haversine_heading (lat1 lon1 lat2 lon2 : ℝ) : ℝ :=
  let lat1r := radians lat1
  let lon1r := radians lon1
  let lat2r := radians lat2
  let lon2r := radians lon2
  let delta_lon := lon2r - lon1r
  let x := Real.sin delta_lon * Real.cos lat2r
  let y := Real.cos lat1r * Real.sin lat2r -
    Real.sin lat1r * Real.cos lat2r * Real.cos delta_lon
  fmod (degrees (atan2 x y) + 360) 360

/-- One decoded RMC message with a valid fix status: the fields of the
parsed message that `read_nmea_rmc` consumes.  `true_course` is `none` when
the sentence's course field is empty, and the timestamp is the elapsed time
at which the message is read. -/
structure FixMsg where
  latitude : ℚ
  longitude : ℚ
  true_course : Option ℚ
  spd_over_grnd : ℚ
  timestamp : ℚ

/-- The mutable state of the `read_nmea_rmc` loop. -/
structure EstState where
  prev : Option (ℚ × ℚ)
  last_valid_heading : Option ℝ
  last_speed : Option ℚ
  speed_buffer : List ℚ
  calculated_headings : List ℝ
  reported_headings : List ℝ
  timestamps : List ℚ
  previous_fixes : List (ℚ × ℚ)
  first_heading_calculated : Bool

/-- The state at the start of a session. -/
def initState : EstState :=
  { prev := none
    last_valid_heading := none
    last_speed := none
    speed_buffer := []
    calculated_headings := []
    reported_headings := []
    timestamps := []
    previous_fixes := []
    first_heading_calculated := false }

/-- Appending to a `deque(maxlen=5)`: the new element goes on the right and
the oldest element is evicted when the capacity of 5 is exceeded. -/
def dequeAppend {α : Type} (xs : List α) (x : α) : List α :=
  (xs ++ [x]).drop (xs.length + 1 - 5)

/-- Speed of a fix in meters per second: `msg.spd_over_grnd * 0.514444`. -/
def speed_m_s (m : FixMsg) : ℚ := m.spd_over_grnd * 0.514444

/-- Reported heading of a fix:
`float(msg.true_course) if msg.true_course else None`.  A course field that
is absent, or whose value is the falsy float `0.0`, yields `None`. -/
def reported_heading (m : FixMsg) : Option ℚ :=
  match m.true_course with
  | some c => if c = 0 then none else some c
  | none => none

/-- The speed buffer after `speed_buffer.append(speed_m_s)`. -/
def newSpeedBuffer (s : EstState) (m : FixMsg) : List ℚ :=
  dequeAppend s.speed_buffer (speed_m_s m)

/-- Rolling average speed `sum(speed_buffer) / len(speed_buffer)`, taken
after the current fix's speed has been appended. -/
def avg_speed (s : EstState) (m : FixMsg) : ℚ :=
  (newSpeedBuffer s m).sum / ((newSpeedBuffer s m).length : ℚ)

/-- Speed difference
`abs(speed_m_s - last_speed) if last_speed is not None else 0`. -/
def speed_diff (s : EstState) (m : FixMsg) : ℚ :=
  match s.last_speed with
  | some ls => |speed_m_s m - ls|
  | none => 0

/-- The fix history after `previous_fixes.append((lat, lon))`. -/
def newPreviousFixes (s : EstState) (m : FixMsg) : List (ℚ × ℚ) :=
  dequeAppend s.previous_fixes (m.latitude, m.longitude)

/-- Smoothed latitude `sum(f[0] for f in previous_fixes) / len(previous_fixes)`,
taken after the current fix has been appended. -/
def avg_lat (s : EstState) (m : FixMsg) : ℚ :=
  ((newPreviousFixes s m).map Prod.fst).sum / ((newPreviousFixes s m).length : ℚ)

/-- Smoothed longitude `sum(f[1] for f in previous_fixes) / len(previous_fixes)`. -/
def avg_lon (s : EstState) (m : FixMsg) : ℚ :=
  ((newPreviousFixes s m).map Prod.snd).sum / ((newPreviousFixes s m).length : ℚ)

/-- The heading-update decision of the loop body, taken when a previous
position exists: the bootstrap branch, the motion-gated smoothing branch, or
the hold branch.  Returns the new `last_valid_heading` and the new
`first_heading_calculated` flag. -/
noncomputable def nextHeading (s : EstState) (m : FixMsg) (prev_lat prev_lon : ℚ) :
    Option ℝ × Bool :=
  if s.first_heading_calculated = false then
    (some (haversine_heading prev_lat prev_lon m.latitude m.longitude), true)
  else if 0.2 < speed_diff s m ∨ 0.2 < avg_speed s m then
    (some (haversine_heading (avg_lat s m) (avg_lon s m) m.latitude m.longitude),
      s.first_heading_calculated)
  else
    (s.last_valid_heading, s.first_heading_calculated)

/-- Processing of one decoded valid fix by the body of `read_nmea_rmc`
(lines 51–86 of `rmc_heading.py`): update the rolling buffers, update the
heading estimate when a previous position exists, store a sample when both
the calculated and the reported heading are known, and record the current
position and speed. -/
noncomputable def processFix (s : EstState) (m : FixMsg) : EstState :=
  match s.prev with
  | none =>
      { s with
        speed_buffer := newSpeedBuffer s m
        previous_fixes := newPreviousFixes s m
        prev := some (m.latitude, m.longitude)
        last_speed := some (speed_m_s m) }
  | some (prev_lat, prev_lon) =>
      let nh := nextHeading s m prev_lat prev_lon
      match nh.1, reported_heading m with
      | some lvh, some rh =>
          { prev := some (m.latitude, m.longitude)
            last_valid_heading := some lvh
            last_speed := some (speed_m_s m)
            speed_buffer := newSpeedBuffer s m
            calculated_headings := s.calculated_headings ++ [radians lvh]
            reported_headings := s.reported_headings ++ [radians (rh : ℝ)]
            timestamps := s.timestamps ++ [m.timestamp]
            previous_fixes := newPreviousFixes s m
            first_heading_calculated := nh.2 }
      | _, _ =>
          { s with
            prev := some (m.latitude, m.longitude)
            last_valid_heading := nh.1
            last_speed := some (speed_m_s m)
            speed_buffer := newSpeedBuffer s m
            previous_fixes := newPreviousFixes s m
            first_heading_calculated := nh.2 }

/-- Modelled from the spec: the decoding of one raw serial line is performed
by the external `pynmea2` collaborator, whose code is not part of this
repository.  A raw line either lacks the `$GNRMC`/`$GPRMC` talker marker,
raises a parse error, or decodes to a message whose status flag may or may
not be the valid mark `A`. -/
inductive RawLine where
  | notRMC : RawLine
  | parseError : RawLine
  | parsed (statusA : Bool) (m : FixMsg) : RawLine

/-- Handling of one raw line by the `read_nmea_rmc` loop: lines without the
RMC marker are ignored, parse errors are swallowed by the
`except pynmea2.ParseError: continue` handler, messages whose status is not
`A` are skipped, and valid fixes are processed. -/
noncomputable def readLine (s : EstState) (l : RawLine) : EstState :=
  match l with
  | RawLine.notRMC => s
  | RawLine.parseError => s
  | RawLine.parsed statusA m => if statusA then processFix s m else s

/-- A whole session of `read_nmea_rmc` over a finite stream of raw lines. -/
noncomputable def read_nmea_rmc (ls : List RawLine) : EstState :=
  ls.foldl readLine initState

/-- Fix of the end-to-end scenario at `t = 0`: position `(0, 0)`, speed 0,
no reported course. -/
def fixA : FixMsg :=
  { latitude := 0, longitude := 0, true_course := none, spd_over_grnd := 0,
    timestamp := 0 }

/-- Fix of the end-to-end scenario at `t = 1`: position `(0, 1)`, ground
speed chosen so that the converted speed is exactly `0.05` m/s, reported
course 88. -/
def fixB : FixMsg :=
  { latitude := 0, longitude := 1, true_course := some 88,
    spd_over_grnd := 12500 / 128611, timestamp := 1 }

/-- Fix of the end-to-end scenario at `t = 2`: position `(0, 2)`, converted
speed `0.05` m/s, reported course 89. -/
def fixC : FixMsg :=
  { latitude := 0, longitude := 2, true_course := some 89,
    spd_over_grnd := 12500 / 128611, timestamp := 2 }

/-- The raw stream of the end-to-end scenario. -/
def scenarioEnd : List RawLine :=
  [RawLine.parsed true fixA, RawLine.parsed true fixB, RawLine.parsed true fixC]

/-- First fix of the fast-then-slow scenario: position `(0, 0)`, converted
speed 10 m/s, no reported course. -/
def fixG0 : FixMsg :=
  { latitude := 0, longitude := 0, true_course := none,
    spd_over_grnd := 2500000 / 128611, timestamp := 0 }

/-- Second fix of the fast-then-slow scenario: position `(0, 1)`, converted
speed `0.05` m/s, no reported course (bootstrap with nothing to pair). -/
def fixG1 : FixMsg :=
  { latitude := 0, longitude := 1, true_course := none,
    spd_over_grnd := 12500 / 128611, timestamp := 1 }

/-- Third fix of the fast-then-slow scenario: position `(1, 1)`, converted
speed `0.05` m/s, reported course 45. -/
def fixG2 : FixMsg :=
  { latitude := 1, longitude := 1, true_course := some 45,
    spd_over_grnd := 12500 / 128611, timestamp := 2 }

/-- The first two raw lines of the fast-then-slow scenario. -/
def scenarioFast2 : List RawLine :=
  [RawLine.parsed true fixG0, RawLine.parsed true fixG1]

/-- All three raw lines of the fast-then-slow scenario. -/
def scenarioFast3 : List RawLine :=
  [RawLine.parsed true fixG0, RawLine.parsed true fixG1, RawLine.parsed true fixG2]

/-- A valid fix whose true-course field carries the value 0 (due north). -/
def fixZ : FixMsg :=
  { latitude := 0, longitude := 0, true_course := some 0, spd_over_grnd := 1,
    timestamp := 3 }

/-- Expected loop state after the end-to-end scenario's fix at `t = 0`. -/
def sEnd1 : EstState :=
  { prev := some (0, 0), last_valid_heading := none, last_speed := some 0,
    speed_buffer := [0], calculated_headings := [], reported_headings := [],
    timestamps := [], previous_fixes := [(0, 0)],
    first_heading_calculated := false }

/-- Expected loop state after the end-to-end scenario's fix at `t = 1`:
the bootstrap heading 90° is paired with the reported course 88 and a
sample is stored. -/
noncomputable def sEnd2 : EstState :=
  { prev := some (0, 1), last_valid_heading := some 90,
    last_speed := some (1/20), speed_buffer := [0, 1/20],
    calculated_headings := [radians 90], reported_headings := [radians 88],
    timestamps := [1], previous_fixes := [(0, 0), (0, 1)],
    first_heading_calculated := true }

/-- Expected loop state after the end-to-end scenario's fix at `t = 2`:
the heading is held at 90° and a second sample is stored. -/
noncomputable def sEnd3 : EstState :=
  { prev := some (0, 2), last_valid_heading := some 90,
    last_speed := some (1/20), speed_buffer := [0, 1/20, 1/20],
    calculated_headings := [radians 90, radians 90],
    reported_headings := [radians 88, radians 89],
    timestamps := [1, 2], previous_fixes := [(0, 0), (0, 1), (0, 2)],
    first_heading_calculated := true }

/-- Expected loop state after the fast-then-slow scenario's first fix. -/
def sFast1 : EstState :=
  { prev := some (0, 0), last_valid_heading := none, last_speed := some 10,
    speed_buffer := [10], calculated_headings := [], reported_headings := [],
    timestamps := [], previous_fixes := [(0, 0)],
    first_heading_calculated := false }

/-- Expected loop state after the fast-then-slow scenario's second fix:
the bootstrap heading 90° is computed but no sample is stored because the
reported course is missing. -/
noncomputable def sFast2 : EstState :=
  { prev := some (0, 1), last_valid_heading := some 90,
    last_speed := some (1/20), speed_buffer := [10, 1/20],
    calculated_headings := [], reported_headings := [],
    timestamps := [], previous_fixes := [(0, 0), (0, 1)],
    first_heading_calculated := true }

/-- Expected loop state after the fast-then-slow scenario's third fix: the
speed delta is 0 but the rolling average speed still reflects the old fast
speed, so the heading is recomputed from the smoothed position, and the
first stored sample carries that smoothed bearing. -/
noncomputable def sFast3 : EstState :=
  { prev := some (1, 1),
    last_valid_heading := some (haversine_heading (1/3) (2/3) 1 1),
    last_speed := some (1/20), speed_buffer := [10, 1/20, 1/20],
    calculated_headings := [radians (haversine_heading (1/3) (2/3) 1 1)],
    reported_headings := [radians 45], timestamps := [2],
    previous_fixes := [(0, 0), (0, 1), (1, 1)],
    first_heading_calculated := true }

lemma dequeAppend_length {α : Type} (xs : List α) (x : α) :
    (dequeAppend xs x).length = min (xs.length + 1) 5 := by
  simp [dequeAppend]
  omega

lemma dequeAppend_length_pos {α : Type} (xs : List α) (x : α) :
    0 < (dequeAppend xs x).length := by
  rw [dequeAppend_length]
  omega

lemma mem_dequeAppend {α : Type} {xs : List α} {x v : α}
    (hv : v ∈ dequeAppend xs x) : v ∈ xs ∨ v = x := by
  have h1 : v ∈ xs ++ [x] := List.mem_of_mem_drop hv
  rcases List.mem_append.1 h1 with h | h
  · exact Or.inl h
  · exact Or.inr (List.mem_singleton.1 h)

lemma fmod_eq_fract (x : ℝ) : fmod x 360 = 360 * Int.fract (x / 360) := by
  unfold fmod Int.fract
  rw [mul_sub, mul_div_cancel₀ x (by norm_num : (360 : ℝ) ≠ 0)]

lemma fmod_nonneg_lt (x : ℝ) : 0 ≤ fmod x 360 ∧ fmod x 360 < 360 := by
  rw [fmod_eq_fract]
  constructor
  · exact mul_nonneg (by norm_num) (Int.fract_nonneg _)
  · have h := Int.fract_lt_one (x / 360)
    nlinarith

lemma fmod_add_360 {d : ℝ} (h0 : 0 ≤ d) (h1 : d < 360) :
    fmod (d + 360) 360 = d := by
  unfold fmod
  have hfl : ⌊(d + 360) / 360⌋ = 1 := by
    rw [Int.floor_eq_iff]
    constructor
    · push_cast
      rw [le_div_iff₀ (by norm_num : (0:ℝ) < 360)]
      linarith
    · push_cast
      rw [div_lt_iff₀ (by norm_num : (0:ℝ) < 360)]
      linarith
  rw [hfl]
  push_cast
  ring

lemma atan2_pos_zero {y : ℝ} (h : 0 < y) : atan2 y 0 = Real.pi / 2 := by
  simp [atan2, h]

lemma atan2_zero_pos {x : ℝ} (h : 0 < x) : atan2 0 x = 0 := by
  simp [atan2, h]

lemma atan2_pos_pos {y x : ℝ} (hx : 0 < x) :
    atan2 y x = Real.arctan (y / x) := by
  simp [atan2, hx]

lemma degrees_pi_div_two : degrees (Real.pi / 2) = 90 := by
  unfold degrees
  field_simp
  ring

lemma degrees_zero : degrees 0 = 0 := by
  simp [degrees]

lemma haversine_east : haversine_heading 0 0 0 1 = 90 := by
  have hs : 0 < Real.sin (Real.pi / 180) :=
    Real.sin_pos_of_pos_of_lt_pi (by positivity)
      (div_lt_self Real.pi_pos (by norm_num))
  have h1 : haversine_heading 0 0 0 1 =
      fmod (degrees (atan2 (Real.sin (Real.pi / 180)) 0) + 360) 360 := by
    simp [haversine_heading, radians]
  rw [h1, atan2_pos_zero hs, degrees_pi_div_two]
  exact fmod_add_360 (by norm_num) (by norm_num)

lemma haversine_north : haversine_heading 0 1 1 1 = 0 := by
  have hs : 0 < Real.sin (Real.pi / 180) :=
    Real.sin_pos_of_pos_of_lt_pi (by positivity)
      (div_lt_self Real.pi_pos (by norm_num))
  have h1 : haversine_heading 0 1 1 1 =
      fmod (degrees (atan2 0 (Real.sin (Real.pi / 180))) + 360) 360 := by
    simp [haversine_heading, radians]
  rw [h1, atan2_zero_pos hs, degrees_zero]
  exact fmod_add_360 (by norm_num) (by norm_num)

lemma haversine_smoothed_bounds :
    0 < haversine_heading (1/3) (2/3) 1 1 ∧ haversine_heading (1/3) (2/3) 1 1 < 90 := by
  have hπ := Real.pi_pos
  have ha0 : 0 < radians (1/3) := by unfold radians; positivity
  have hab : radians (1/3) < radians 1 := by unfold radians; nlinarith
  have hb2 : radians 1 < Real.pi / 2 := by unfold radians; nlinarith
  have hsa : 0 < Real.sin (radians (1/3)) :=
    Real.sin_pos_of_pos_of_lt_pi ha0 (by nlinarith)
  have hca : 0 < Real.cos (radians (1/3)) :=
    Real.cos_pos_of_mem_Ioo ⟨by linarith, by linarith⟩
  have hcb : 0 < Real.cos (radians 1) :=
    Real.cos_pos_of_mem_Ioo ⟨by linarith, hb2⟩
  have hsab : Real.sin (radians (1/3)) < Real.sin (radians 1) :=
    Real.strictMonoOn_sin ⟨by linarith, by linarith⟩ ⟨by linarith, by linarith⟩ hab
  have hdelta : radians (1:ℝ) - radians (2/3) = radians (1/3) := by unfold radians; ring
  have hx : 0 < Real.sin (radians (1/3)) * Real.cos (radians 1) := mul_pos hsa hcb
  have hy : 0 < Real.cos (radians (1/3)) * Real.sin (radians 1) -
      Real.sin (radians (1/3)) * Real.cos (radians 1) * Real.cos (radians (1/3)) := by
    have h1 : Real.sin (radians (1/3)) * Real.cos (radians 1) ≤ Real.sin (radians (1/3)) :=
      mul_le_of_le_one_right hsa.le (Real.cos_le_one _)
    have h2 : 0 < Real.sin (radians 1) -
        Real.sin (radians (1/3)) * Real.cos (radians 1) := by linarith
    have h3 := mul_pos hca h2
    nlinarith
  have hexp : haversine_heading (1/3) (2/3) 1 1 =
      fmod (degrees (atan2
        (Real.sin (radians (1/3)) * Real.cos (radians 1))
        (Real.cos (radians (1/3)) * Real.sin (radians 1) -
          Real.sin (radians (1/3)) * Real.cos (radians 1) * Real.cos (radians (1/3)))) +
        360) 360 := by
    simp only [haversine_heading]
    rw [hdelta]
  have harct0 : 0 < Real.arctan ((Real.sin (radians (1/3)) * Real.cos (radians 1)) /
      (Real.cos (radians (1/3)) * Real.sin (radians 1) -
        Real.sin (radians (1/3)) * Real.cos (radians 1) * Real.cos (radians (1/3)))) := by
    have h := Real.arctan_strictMono (div_pos hx hy)
    rwa [Real.arctan_zero] at h
  have harct2 := Real.arctan_lt_pi_div_two ((Real.sin (radians (1/3)) * Real.cos (radians 1)) /
      (Real.cos (radians (1/3)) * Real.sin (radians 1) -
        Real.sin (radians (1/3)) * Real.cos (radians 1) * Real.cos (radians (1/3))))
  have hd0 : 0 < degrees (Real.arctan ((Real.sin (radians (1/3)) * Real.cos (radians 1)) /
      (Real.cos (radians (1/3)) * Real.sin (radians 1) -
        Real.sin (radians (1/3)) * Real.cos (radians 1) * Real.cos (radians (1/3))))) := by
    unfold degrees
    exact mul_pos harct0 (by positivity)
  have hd90 : degrees (Real.arctan ((Real.sin (radians (1/3)) * Real.cos (radians 1)) /
      (Real.cos (radians (1/3)) * Real.sin (radians 1) -
        Real.sin (radians (1/3)) * Real.cos (radians 1) * Real.cos (radians (1/3))))) < 90 := by
    unfold degrees
    have h90 : (Real.pi / 2) * (180 / Real.pi) = 90 := by
      field_simp
      ring
    calc Real.arctan ((Real.sin (radians (1/3)) * Real.cos (radians 1)) /
          (Real.cos (radians (1/3)) * Real.sin (radians 1) -
            Real.sin (radians (1/3)) * Real.cos (radians 1) * Real.cos (radians (1/3)))) *
          (180 / Real.pi)
        < (Real.pi / 2) * (180 / Real.pi) :=
          mul_lt_mul_of_pos_right harct2 (by positivity)
      _ = 90 := h90
  rw [hexp, atan2_pos_pos hy, fmod_add_360 hd0.le (by linarith)]
  exact ⟨hd0, hd90⟩

lemma nextHeading_bootstrap (s : EstState) (m : FixMsg) (pl pn : ℚ)
    (hf : s.first_heading_calculated = false) :
    nextHeading s m pl pn =
      (some (haversine_heading pl pn m.latitude m.longitude), true) := by
  simp [nextHeading, hf]

lemma nextHeading_gate (s : EstState) (m : FixMsg) (pl pn : ℚ)
    (hf : s.first_heading_calculated = true)
    (hg : (0.2:ℚ) < speed_diff s m ∨ (0.2:ℚ) < avg_speed s m) :
    nextHeading s m pl pn =
      (some (haversine_heading (avg_lat s m) (avg_lon s m) m.latitude m.longitude),
        true) := by
  simp [nextHeading, hf, hg]

lemma nextHeading_hold (s : EstState) (m : FixMsg) (pl pn : ℚ)
    (hf : s.first_heading_calculated = true)
    (h1 : ¬ (0.2:ℚ) < speed_diff s m) (h2 : ¬ (0.2:ℚ) < avg_speed s m) :
    nextHeading s m pl pn = (s.last_valid_heading, true) := by
  simp [nextHeading, hf, h1, h2]

lemma processFix_prev_none (s : EstState) (m : FixMsg) (h : s.prev = none) :
    processFix s m =
      { s with
        speed_buffer := newSpeedBuffer s m
        previous_fixes := newPreviousFixes s m
        prev := some (m.latitude, m.longitude)
        last_speed := some (speed_m_s m) } := by
  simp [processFix, h]

lemma processFix_emit (s : EstState) (m : FixMsg) (pl pn : ℚ) (lvh : ℝ) (rh : ℚ)
    (hp : s.prev = some (pl, pn))
    (hl : (nextHeading s m pl pn).1 = some lvh)
    (hr : reported_heading m = some rh) :
    processFix s m =
      { prev := some (m.latitude, m.longitude)
        last_valid_heading := some lvh
        last_speed := some (speed_m_s m)
        speed_buffer := newSpeedBuffer s m
        calculated_headings := s.calculated_headings ++ [radians lvh]
        reported_headings := s.reported_headings ++ [radians (rh : ℝ)]
        timestamps := s.timestamps ++ [m.timestamp]
        previous_fixes := newPreviousFixes s m
        first_heading_calculated := (nextHeading s m pl pn).2 } := by
  simp [processFix, hp, hl, hr]

lemma processFix_noemit (s : EstState) (m : FixMsg) (pl pn : ℚ)
    (hp : s.prev = some (pl, pn))
    (h : (nextHeading s m pl pn).1 = none ∨ reported_heading m = none) :
    processFix s m =
      { s with
        prev := some (m.latitude, m.longitude)
        last_valid_heading := (nextHeading s m pl pn).1
        last_speed := some (speed_m_s m)
        speed_buffer := newSpeedBuffer s m
        previous_fixes := newPreviousFixes s m
        first_heading_calculated := (nextHeading s m pl pn).2 } := by
  rcases h with h | h
  · simp [processFix, hp, h]
  · rcases hl : (nextHeading s m pl pn).1 with _ | lvh
    · simp [processFix, hp, h, hl]
    · simp [processFix, hp, h, hl]

lemma processFix_last_speed (s : EstState) (m : FixMsg) :
    (processFix s m).last_speed = some (speed_m_s m) := by
  rcases hp : s.prev with _ | ⟨pl, pn⟩
  · rw [processFix_prev_none s m hp]
  · rcases hr : reported_heading m with _ | rh
    · rw [processFix_noemit s m pl pn hp (Or.inr hr)]
    · rcases hl : (nextHeading s m pl pn).1 with _ | lvh
      · rw [processFix_noemit s m pl pn hp (Or.inl hl)]
      · rw [processFix_emit s m pl pn lvh rh hp hl hr]

lemma processFix_prev_eq (s : EstState) (m : FixMsg) :
    (processFix s m).prev = some (m.latitude, m.longitude) := by
  rcases hp : s.prev with _ | ⟨pl, pn⟩
  · rw [processFix_prev_none s m hp]
  · rcases hr : reported_heading m with _ | rh
    · rw [processFix_noemit s m pl pn hp (Or.inr hr)]
    · rcases hl : (nextHeading s m pl pn).1 with _ | lvh
      · rw [processFix_noemit s m pl pn hp (Or.inl hl)]
      · rw [processFix_emit s m pl pn lvh rh hp hl hr]

lemma processFix_speed_buffer (s : EstState) (m : FixMsg) :
    (processFix s m).speed_buffer = newSpeedBuffer s m := by
  rcases hp : s.prev with _ | ⟨pl, pn⟩
  · rw [processFix_prev_none s m hp]
  · rcases hr : reported_heading m with _ | rh
    · rw [processFix_noemit s m pl pn hp (Or.inr hr)]
    · rcases hl : (nextHeading s m pl pn).1 with _ | lvh
      · rw [processFix_noemit s m pl pn hp (Or.inl hl)]
      · rw [processFix_emit s m pl pn lvh rh hp hl hr]

lemma processFix_previous_fixes (s : EstState) (m : FixMsg) :
    (processFix s m).previous_fixes = newPreviousFixes s m := by
  rcases hp : s.prev with _ | ⟨pl, pn⟩
  · rw [processFix_prev_none s m hp]
  · rcases hr : reported_heading m with _ | rh
    · rw [processFix_noemit s m pl pn hp (Or.inr hr)]
    · rcases hl : (nextHeading s m pl pn).1 with _ | lvh
      · rw [processFix_noemit s m pl pn hp (Or.inl hl)]
      · rw [processFix_emit s m pl pn lvh rh hp hl hr]

lemma processFix_lvh (s : EstState) (m : FixMsg) (pl pn : ℚ)
    (hp : s.prev = some (pl, pn)) :
    (processFix s m).last_valid_heading = (nextHeading s m pl pn).1 := by
  rcases hr : reported_heading m with _ | rh
  · rw [processFix_noemit s m pl pn hp (Or.inr hr)]
  · rcases hl : (nextHeading s m pl pn).1 with _ | lvh
    · rw [processFix_noemit s m pl pn hp (Or.inl hl), hl]
    · rw [processFix_emit s m pl pn lvh rh hp hl hr, ← hl]

lemma processFix_fhc (s : EstState) (m : FixMsg) (pl pn : ℚ)
    (hp : s.prev = some (pl, pn)) :
    (processFix s m).first_heading_calculated = (nextHeading s m pl pn).2 := by
  rcases hr : reported_heading m with _ | rh
  · rw [processFix_noemit s m pl pn hp (Or.inr hr)]
  · rcases hl : (nextHeading s m pl pn).1 with _ | lvh
    · rw [processFix_noemit s m pl pn hp (Or.inl hl)]
    · rw [processFix_emit s m pl pn lvh rh hp hl hr]

lemma pfEnd1 : processFix initState fixA = sEnd1 := by
  rw [processFix_prev_none initState fixA rfl]
  simp [initState, sEnd1, newSpeedBuffer, newPreviousFixes, dequeAppend,
    speed_m_s, fixA]

lemma pfEnd2 : processFix sEnd1 fixB = sEnd2 := by
  have hb := nextHeading_bootstrap sEnd1 fixB 0 0 rfl
  have hl : (nextHeading sEnd1 fixB 0 0).1 = some 90 := by
    rw [hb]
    norm_num [fixB, haversine_east]
  have hr : reported_heading fixB = some 88 := by
    norm_num [reported_heading, fixB]
  rw [processFix_emit sEnd1 fixB 0 0 90 88 rfl hl hr, hb]
  simp [sEnd1, sEnd2, newSpeedBuffer, newPreviousFixes, dequeAppend,
    speed_m_s, fixB]
  norm_num

lemma pfEnd3 : processFix sEnd2 fixC = sEnd3 := by
  have hd : ¬ (0.2:ℚ) < speed_diff sEnd2 fixC := by
    norm_num [speed_diff, speed_m_s, sEnd2, fixC]
  have ha : ¬ (0.2:ℚ) < avg_speed sEnd2 fixC := by
    norm_num [avg_speed, newSpeedBuffer, dequeAppend, speed_m_s, sEnd2, fixC]
  have hh := nextHeading_hold sEnd2 fixC 0 1 rfl hd ha
  have hl : (nextHeading sEnd2 fixC 0 1).1 = some 90 := by
    rw [hh]
    simp [sEnd2]
  have hr : reported_heading fixC = some 89 := by
    norm_num [reported_heading, fixC]
  rw [processFix_emit sEnd2 fixC 0 1 90 89 rfl hl hr, hh]
  simp [sEnd2, sEnd3, newSpeedBuffer, newPreviousFixes, dequeAppend,
    speed_m_s, fixC]
  norm_num

lemma runEnd : read_nmea_rmc scenarioEnd = sEnd3 := by
  simp only [read_nmea_rmc, scenarioEnd, List.foldl, readLine, if_true,
    pfEnd1, pfEnd2, pfEnd3]

lemma pfFast1 : processFix initState fixG0 = sFast1 := by
  rw [processFix_prev_none initState fixG0 rfl]
  simp [initState, sFast1, newSpeedBuffer, newPreviousFixes, dequeAppend,
    speed_m_s, fixG0]
  norm_num

lemma pfFast2 : processFix sFast1 fixG1 = sFast2 := by
  have hb := nextHeading_bootstrap sFast1 fixG1 0 0 rfl
  rw [processFix_noemit sFast1 fixG1 0 0 rfl (Or.inr rfl), hb]
  simp [sFast1, sFast2, newSpeedBuffer, newPreviousFixes, dequeAppend,
    speed_m_s, fixG1]
  norm_num [haversine_east]

lemma pfFast3 : processFix sFast2 fixG2 = sFast3 := by
  have hg : (0.2:ℚ) < speed_diff sFast2 fixG2 ∨ (0.2:ℚ) < avg_speed sFast2 fixG2 :=
    Or.inr (by norm_num [avg_speed, newSpeedBuffer, dequeAppend, speed_m_s,
      sFast2, fixG2])
  have hga := nextHeading_gate sFast2 fixG2 0 1 rfl hg
  have hl : (nextHeading sFast2 fixG2 0 1).1 =
      some (haversine_heading (1/3) (2/3) 1 1) := by
    rw [hga]
    norm_num [avg_lat, avg_lon, newPreviousFixes, dequeAppend, sFast2, fixG2]
  have hr : reported_heading fixG2 = some 45 := by
    norm_num [reported_heading, fixG2]
  rw [processFix_emit sFast2 fixG2 0 1 (haversine_heading (1/3) (2/3) 1 1) 45
    rfl hl hr, hga]
  simp [sFast2, sFast3, newSpeedBuffer, newPreviousFixes, dequeAppend,
    speed_m_s, fixG2]
  norm_num

lemma runFast2 : read_nmea_rmc scenarioFast2 = sFast2 := by
  simp only [read_nmea_rmc, scenarioFast2, List.foldl, readLine, if_true,
    pfFast1, pfFast2]

lemma runFast3 : read_nmea_rmc scenarioFast3 = sFast3 := by
  simp only [read_nmea_rmc, scenarioFast3, List.foldl, readLine, if_true,
    pfFast1, pfFast2, pfFast3]

lemma radians_injective {a b : ℝ} (h : radians a = radians b) : a = b := by
  unfold radians at h
  exact mul_right_cancel₀ (ne_of_gt (by positivity)) h

lemma processFix_lists_unchanged (s : EstState) (m : FixMsg)
    (h : reported_heading m = none ∨ (processFix s m).last_valid_heading = none) :
    (processFix s m).calculated_headings = s.calculated_headings ∧
    (processFix s m).reported_headings = s.reported_headings ∧
    (processFix s m).timestamps = s.timestamps := by
  rcases hp : s.prev with _ | ⟨pl, pn⟩
  · rw [processFix_prev_none s m hp]
    exact ⟨rfl, rfl, rfl⟩
  · rcases h with h | h
    · rw [processFix_noemit s m pl pn hp (Or.inr h)]
      exact ⟨rfl, rfl, rfl⟩
    · have hl : (nextHeading s m pl pn).1 = none := by
        rw [← processFix_lvh s m pl pn hp]
        exact h
      rw [processFix_noemit s m pl pn hp (Or.inl hl)]
      exact ⟨rfl, rfl, rfl⟩

lemma foldl_buffers_le (ls : List RawLine) (s : EstState)
    (h1 : s.speed_buffer.length ≤ 5) (h2 : s.previous_fixes.length ≤ 5) :
    (List.foldl readLine s ls).speed_buffer.length ≤ 5 ∧
    (List.foldl readLine s ls).previous_fixes.length ≤ 5 := by
  induction ls generalizing s with
  | nil => exact ⟨h1, h2⟩
  | cons l ls ih =>
      have hs : (readLine s l).speed_buffer.length ≤ 5 ∧
          (readLine s l).previous_fixes.length ≤ 5 := by
        cases l with
        | notRMC => exact ⟨h1, h2⟩
        | parseError => exact ⟨h1, h2⟩
        | parsed b m =>
            cases b
            · exact ⟨h1, h2⟩
            · have hb : readLine s (RawLine.parsed true m) = processFix s m := rfl
              rw [hb, processFix_speed_buffer, processFix_previous_fixes]
              constructor
              · rw [newSpeedBuffer, dequeAppend_length]
                omega
              · rw [newPreviousFixes, dequeAppend_length]
                omega
      exact ih _ hs.1 hs.2

lemma avg_speed_le (s : EstState) (m : FixMsg)
    (hall : ∀ v ∈ newSpeedBuffer s m, v ≤ (1/5 : ℚ)) :
    avg_speed s m ≤ 1/5 := by
  have hlen : 0 < (newSpeedBuffer s m).length := dequeAppend_length_pos _ _
  have hsum : (newSpeedBuffer s m).sum ≤
      (newSpeedBuffer s m).length • (1/5 : ℚ) :=
    List.sum_le_card_nsmul _ _ hall
  rw [avg_speed, div_le_iff₀ (by exact_mod_cast hlen)]
  calc (newSpeedBuffer s m).sum
      ≤ (newSpeedBuffer s m).length • (1/5 : ℚ) := hsum
    _ = ((newSpeedBuffer s m).length : ℚ) * (1/5) := by
        rw [nsmul_eq_mul]
    _ = 1/5 * ((newSpeedBuffer s m).length : ℚ) := by ring

/-- C9: for all inputs, `haversine_heading` returns a value in `[0, 360)`,
computed by the spherical forward-azimuth formula
`atan2(sin Δlon · cos lat2, cos lat1 · sin lat2 − sin lat1 · cos lat2 · cos Δlon)`
converted to degrees and normalized by adding 360 and taking the modulo. -/
theorem C9_bearing_range (lat1 lon1 lat2 lon2 : ℝ) :
    0 ≤ haversine_heading lat1 lon1 lat2 lon2 ∧
    haversine_heading lat1 lon1 lat2 lon2 < 360 ∧
    haversine_heading lat1 lon1 lat2 lon2 =
      fmod (degrees (atan2
        (Real.sin (radians lon2 - radians lon1) * Real.cos (radians lat2))
        (Real.cos (radians lat1) * Real.sin (radians lat2) -
          Real.sin (radians lat1) * Real.cos (radians lat2) *
            Real.cos (radians lon2 - radians lon1))) + 360) 360 :=
  ⟨(fmod_nonneg_lt _).1, (fmod_nonneg_lt _).2, rfl⟩

/-- C4: a raw message that fails to parse (or lacks the RMC marker) is
skipped and the session continues with the remaining messages unchanged;
no single message aborts the reading loop. -/
theorem C4_skip_bad_lines (pre post : List RawLine) (l : RawLine)
    (h : l = RawLine.parseError ∨ l = RawLine.notRMC) :
    read_nmea_rmc (pre ++ l :: post) = read_nmea_rmc (pre ++ post) := by
  rcases h with h | h <;> subst h <;>
    simp [read_nmea_rmc, List.foldl_append, readLine]

/-- Witness for C4 at a concrete input: a lone unparseable line leaves the
session in the same state as the empty session. -/
theorem C4_skip_bad_lines_witness :
    read_nmea_rmc ([] ++ RawLine.parseError :: []) = read_nmea_rmc ([] ++ []) :=
  C4_skip_bad_lines [] [] RawLine.parseError (Or.inl rfl)

/-- C5: when the reported heading of a fix is missing (or when no calculated
heading exists after the update), no sample is appended to any of the three
result lists; a sample is stored only when both headings are known. -/
theorem C5_no_sample_without_both (s : EstState) (m : FixMsg)
    (h : reported_heading m = none ∨ (processFix s m).last_valid_heading = none) :
    (processFix s m).calculated_headings = s.calculated_headings ∧
    (processFix s m).reported_headings = s.reported_headings ∧
    (processFix s m).timestamps = s.timestamps :=
  processFix_lists_unchanged s m h

/-- Witness for C5 at a concrete input: the fix with a missing course field
appends nothing. -/
theorem C5_no_sample_without_both_witness :
    (processFix initState fixG1).calculated_headings = initState.calculated_headings ∧
    (processFix initState fixG1).reported_headings = initState.reported_headings ∧
    (processFix initState fixG1).timestamps = initState.timestamps :=
  C5_no_sample_without_both initState fixG1 (Or.inl rfl)

/-- C10: a valid (status `A`) message whose true-course field carries the
falsy value 0 is treated as having no reported heading, and no sample is
stored for that fix. -/
theorem C10_zero_course_drops_sample (s : EstState) (m : FixMsg)
    (h : m.true_course = some 0) :
    reported_heading m = none ∧
    (readLine s (RawLine.parsed true m)).calculated_headings =
      s.calculated_headings ∧
    (readLine s (RawLine.parsed true m)).reported_headings =
      s.reported_headings ∧
    (readLine s (RawLine.parsed true m)).timestamps = s.timestamps := by
  have hr : reported_heading m = none := by
    simp [reported_heading, h]
  have hrl : readLine s (RawLine.parsed true m) = processFix s m := rfl
  obtain ⟨h1, h2, h3⟩ := processFix_lists_unchanged s m (Or.inl hr)
  rw [hrl]
  exact ⟨hr, h1, h2, h3⟩

/-- Witness for C10 at a concrete input: a fix reporting a course of exactly
0 degrees yields no sample. -/
theorem C10_zero_course_drops_sample_witness :
    reported_heading fixZ = none ∧
    (readLine initState (RawLine.parsed true fixZ)).calculated_headings =
      initState.calculated_headings ∧
    (readLine initState (RawLine.parsed true fixZ)).reported_headings =
      initState.reported_headings ∧
    (readLine initState (RawLine.parsed true fixZ)).timestamps =
      initState.timestamps :=
  C10_zero_course_drops_sample initState fixZ rfl

/-- C7: `speed_diff` is 0 on the first observation of a session (no prior
speed exists), the previous speed is recorded after every processed fix,
and on any later fix `speed_diff` is the absolute difference between the
current speed and the speed of the immediately preceding processed fix. -/
theorem C7_speed_delta (s : EstState) (m mnext : FixMsg) :
    speed_diff initState m = 0 ∧
    (processFix s m).last_speed = some (speed_m_s m) ∧
    speed_diff (processFix s m) mnext = |speed_m_s mnext - speed_m_s m| := by
  refine ⟨rfl, processFix_last_speed s m, ?_⟩
  simp [speed_diff, processFix_last_speed s m]

/-- C6: the smoothing buffers never hold more than 5 entries in any session,
and after 7 positions are inserted into an empty window only the last 5
remain (FIFO eviction), so the average position is the arithmetic mean of
the last 5 positions alone. -/
theorem C6_window_bounded (ls : List RawLine) (p1 p2 p3 p4 p5 p6 p7 : ℚ × ℚ) :
    (read_nmea_rmc ls).speed_buffer.length ≤ 5 ∧
    (read_nmea_rmc ls).previous_fixes.length ≤ 5 ∧
    List.foldl dequeAppend ([] : List (ℚ × ℚ)) [p1, p2, p3, p4, p5, p6, p7] =
      [p3, p4, p5, p6, p7] ∧
    ((List.foldl dequeAppend ([] : List (ℚ × ℚ))
        [p1, p2, p3, p4, p5, p6, p7]).map Prod.fst).sum /
      ((List.foldl dequeAppend ([] : List (ℚ × ℚ))
        [p1, p2, p3, p4, p5, p6, p7]).length : ℚ) =
      (p3.1 + p4.1 + p5.1 + p6.1 + p7.1) / 5 ∧
    ((List.foldl dequeAppend ([] : List (ℚ × ℚ))
        [p1, p2, p3, p4, p5, p6, p7]).map Prod.snd).sum /
      ((List.foldl dequeAppend ([] : List (ℚ × ℚ))
        [p1, p2, p3, p4, p5, p6, p7]).length : ℚ) =
      (p3.2 + p4.2 + p5.2 + p6.2 + p7.2) / 5 := by
  have hb := foldl_buffers_le ls initState (by simp [initState]) (by simp [initState])
  have hfold : List.foldl dequeAppend ([] : List (ℚ × ℚ))
      [p1, p2, p3, p4, p5, p6, p7] = [p3, p4, p5, p6, p7] := by
    simp [dequeAppend]
  refine ⟨hb.1, hb.2, hfold, ?_, ?_⟩
  · rw [hfold]
    simp
    ring
  · rw [hfold]
    simp
    ring

/-- C2: after the bootstrap heading exists, a fix recomputes the heading
from the smoothed average position to the fix's position exactly when the
speed difference exceeds 0.2 m/s or the rolling average speed exceeds
0.2 m/s, and otherwise `last_valid_heading` is held unchanged. -/
theorem C2_motion_gate (s : EstState) (m : FixMsg) (pl pn : ℚ)
    (hp : s.prev = some (pl, pn))
    (hf : s.first_heading_calculated = true) :
    (processFix s m).last_valid_heading =
      if (0.2:ℚ) < speed_diff s m ∨ (0.2:ℚ) < avg_speed s m then
        some (haversine_heading (avg_lat s m : ℝ) (avg_lon s m : ℝ)
          (m.latitude : ℝ) (m.longitude : ℝ))
      else s.last_valid_heading := by
  rw [processFix_lvh s m pl pn hp]
  by_cases hg : (0.2:ℚ) < speed_diff s m ∨ (0.2:ℚ) < avg_speed s m
  · rw [nextHeading_gate s m pl pn hf hg, if_pos hg]
  · rw [nextHeading_hold s m pl pn hf (not_or.1 hg).1 (not_or.1 hg).2, if_neg hg]

/-- Witness for C2 at a concrete input: the held fix at `t = 2` of the
end-to-end scenario. -/
theorem C2_motion_gate_witness :
    (processFix sEnd2 fixC).last_valid_heading =
      if (0.2:ℚ) < speed_diff sEnd2 fixC ∨ (0.2:ℚ) < avg_speed sEnd2 fixC then
        some (haversine_heading (avg_lat sEnd2 fixC : ℝ) (avg_lon sEnd2 fixC : ℝ)
          (fixC.latitude : ℝ) (fixC.longitude : ℝ))
      else sEnd2.last_valid_heading :=
  C2_motion_gate sEnd2 fixC 0 1 rfl rfl

/-- C3 counterexample: in the fast-then-slow scenario the bootstrap fix has
no reported heading, so the first (and only) stored sample is produced
later by the smoothing branch; its calculated heading is the bearing from
the averaged position `(1/3, 2/3)` and differs both from the raw bootstrap
bearing `(0,0) → (0,1)` and from the raw bearing `(0,1) → (1,1)` of the
emitting step, refuting that the first emitted sample is always derived
from raw positions. -/
theorem C3_counterexample :
    (read_nmea_rmc scenarioFast3).calculated_headings =
      [radians (haversine_heading (1/3) (2/3) 1 1)] ∧
    radians (haversine_heading (1/3) (2/3) 1 1) ≠
      radians (haversine_heading 0 0 0 1) ∧
    radians (haversine_heading (1/3) (2/3) 1 1) ≠
      radians (haversine_heading 0 1 1 1) := by
  obtain ⟨hpos, hlt⟩ := haversine_smoothed_bounds
  refine ⟨by rw [runFast3]; rfl, ?_, ?_⟩
  · rw [haversine_east]
    intro h
    have h2 := radians_injective h
    linarith
  · rw [haversine_north]
    intro h
    have h2 := radians_injective h
    linarith

/-- C3 (amended): on the second valid fix of a session the heading is always
computed from the raw previous position to the current position, bypassing
the smoothing window and the motion gate regardless of speed; and when that
bootstrap fix itself carries a reported heading, the first stored sample's
calculated heading is the raw-derived bearing. -/
theorem C3_bootstrap_raw (s : EstState) (m : FixMsg) (pl pn : ℚ)
    (hp : s.prev = some (pl, pn))
    (hf : s.first_heading_calculated = false) :
    (processFix s m).last_valid_heading =
      some (haversine_heading (pl : ℝ) (pn : ℝ) (m.latitude : ℝ) (m.longitude : ℝ)) ∧
    (processFix s m).first_heading_calculated = true ∧
    (s.calculated_headings = [] → reported_heading m ≠ none →
      (processFix s m).calculated_headings =
        [radians (haversine_heading (pl : ℝ) (pn : ℝ)
          (m.latitude : ℝ) (m.longitude : ℝ))]) := by
  have hb := nextHeading_bootstrap s m pl pn hf
  refine ⟨?_, ?_, ?_⟩
  · rw [processFix_lvh s m pl pn hp, hb]
  · rw [processFix_fhc s m pl pn hp, hb]
  · intro hc hr
    rcases hrr : reported_heading m with _ | rh
    · exact absurd hrr hr
    · rw [processFix_emit s m pl pn
        (haversine_heading (pl : ℝ) (pn : ℝ) (m.latitude : ℝ) (m.longitude : ℝ))
        rh hp (by rw [hb]) hrr]
      simp [hc]

/-- Witness for the amended C3 at a concrete input: the bootstrap fix of the
end-to-end scenario sets the raw bearing. -/
theorem C3_bootstrap_raw_witness :
    (processFix sEnd1 fixB).last_valid_heading =
      some (haversine_heading ((0:ℚ) : ℝ) ((0:ℚ) : ℝ)
        (fixB.latitude : ℝ) (fixB.longitude : ℝ)) :=
  (C3_bootstrap_raw sEnd1 fixB 0 0 rfl rfl).1

/-- C1 counterexample: on the end-to-end scenario the loop stores two
samples, at `t = 1` and `t = 2` — the fix at `t = 1` carries reported
heading 88, which pairs with the freshly computed bootstrap heading — so it
does not emit exactly one sample. -/
theorem C1_counterexample :
    (read_nmea_rmc scenarioEnd).timestamps = [1, 2] ∧
    (read_nmea_rmc scenarioEnd).timestamps.length ≠ 1 := by
  rw [runEnd]
  exact ⟨rfl, by simp [sEnd3]⟩

/-- C1 (amended): on the end-to-end scenario the loop emits exactly two
samples, at `t = 1` and `t = 2`, both of whose calculated headings equal the
bearing from `(0,0)` to `(0,1)`, which is exactly 90 degrees. -/
theorem C1_two_samples :
    (read_nmea_rmc scenarioEnd).timestamps = [1, 2] ∧
    (read_nmea_rmc scenarioEnd).calculated_headings = [radians 90, radians 90] ∧
    (read_nmea_rmc scenarioEnd).reported_headings = [radians 88, radians 89] ∧
    haversine_heading 0 0 0 1 = 90 := by
  rw [runEnd]
  exact ⟨rfl, rfl, rfl, haversine_east⟩

/-- C8 counterexample: in the fast-then-slow scenario the fix after the
bootstrap has speed 0.05 m/s and speed delta 0, yet the rolling average
speed still reflects the earlier 10 m/s fix, so the average-speed gate
fires and `last_valid_heading` changes from the bootstrap value 90°. -/
theorem C8_counterexample :
    speed_m_s fixG2 = 1/20 ∧
    (read_nmea_rmc scenarioFast2).last_speed = some (1/20) ∧
    speed_diff (read_nmea_rmc scenarioFast2) fixG2 = 0 ∧
    (read_nmea_rmc scenarioFast2).first_heading_calculated = true ∧
    (read_nmea_rmc scenarioFast2).last_valid_heading = some 90 ∧
    (readLine (read_nmea_rmc scenarioFast2) (RawLine.parsed true fixG2)).last_valid_heading
      ≠ some 90 := by
  have hstep : readLine (read_nmea_rmc scenarioFast2) (RawLine.parsed true fixG2) =
      read_nmea_rmc scenarioFast3 := by
    rw [runFast2]
    show processFix sFast2 fixG2 = _
    rw [pfFast3, runFast3]
  rw [hstep, runFast2, runFast3]
  obtain ⟨hpos, hlt⟩ := haversine_smoothed_bounds
  refine ⟨by norm_num [speed_m_s, fixG2], rfl, ?_, rfl, rfl, ?_⟩
  · norm_num [speed_diff, speed_m_s, sFast2, fixG2]
  · show sFast3.last_valid_heading ≠ some 90
    simp only [sFast3]
    intro h
    have h2 : haversine_heading (1/3) (2/3) 1 1 = 90 := Option.some_inj.1 h
    linarith

/-- C8 (amended): after the bootstrap, a run of fixes whose speeds are all
exactly 0.05 m/s holds `last_valid_heading` unchanged across every fix,
provided the previous recorded speed is 0.05 m/s (so every delta is 0) and
every speed still held in the 5-entry rolling buffer is at most 0.2 m/s
(so the average-speed gate cannot fire). -/
theorem C8_constant_slow_holds (s : EstState) (ms : List FixMsg)
    (hprev : s.prev ≠ none)
    (hfirst : s.first_heading_calculated = true)
    (hlast : s.last_speed = some (1/20 : ℚ))
    (hbuf : ∀ v ∈ s.speed_buffer, v ≤ (1/5 : ℚ))
    (hms : ∀ m ∈ ms, speed_m_s m = 1/20) :
    (List.foldl processFix s ms).last_valid_heading = s.last_valid_heading := by
  induction ms generalizing s with
  | nil => rfl
  | cons m ms ih =>
      obtain ⟨⟨pl, pn⟩, hp⟩ : ∃ p, s.prev = some p :=
        Option.ne_none_iff_exists'.1 hprev
      have hm : speed_m_s m = 1/20 := hms m (List.mem_cons_self m ms)
      have hd : ¬ (0.2:ℚ) < speed_diff s m := by
        simp only [speed_diff, hlast, hm]
        norm_num
      have hallnew : ∀ v ∈ newSpeedBuffer s m, v ≤ (1/5:ℚ) := by
        intro v hv
        rcases mem_dequeAppend hv with h | h
        · exact hbuf v h
        · rw [h, hm]
          norm_num
      have ha : ¬ (0.2:ℚ) < avg_speed s m := by
        have hle := avg_speed_le s m hallnew
        have h02 : (0.2:ℚ) = 1/5 := by norm_num
        rw [h02]
        exact not_lt.2 hle
      have hh := nextHeading_hold s m pl pn hfirst hd ha
      have hstep : (processFix s m).last_valid_heading = s.last_valid_heading := by
        rw [processFix_lvh s m pl pn hp, hh]
      have hrec := ih (processFix s m)
        (by rw [processFix_prev_eq]; simp)
        (by rw [processFix_fhc s m pl pn hp, hh])
        (by rw [processFix_last_speed, hm])
        (by rw [processFix_speed_buffer]; exact hallnew)
        (fun m' hm' => hms m' (List.mem_cons_of_mem m hm'))
      rw [List.foldl_cons, hrec, hstep]

/-- Witness for the amended C8 at a concrete input: one constant-slow fix
after the bootstrap of the end-to-end scenario leaves the heading as is. -/
theorem C8_constant_slow_holds_witness :
    (List.foldl processFix sEnd2 [fixC]).last_valid_heading =
      sEnd2.last_valid_heading :=
  C8_constant_slow_holds sEnd2 [fixC] (by simp [sEnd2]) rfl rfl
    (by intro v hv
        simp only [sEnd2, List.mem_cons, List.not_mem_nil, or_false] at hv
        rcases hv with h | h <;> rw [h] <;> norm_num)
    (by intro m hm
        simp only [List.mem_cons, List.not_mem_nil, or_false] at hm
        rw [hm]
        norm_num [speed_m_s, fixC])
